import Mathlib

/-!
Shallow embedding of the streaming chat orchestrator implemented by the
`useAIChat` hook (frontend/hooks/useAIChat.ts) together with the data model
from frontend/types/chat.ts.

The hook's React state (`messages`, `isStreaming`, `isLoading`, `error`,
`abortControllerRef`) is modelled as an explicit `ChatState` record; every
`setMessages(prev => ...)` call in the source becomes a pure transformation
of the `messages` field.  Calls into the externally supplied handler object
(`handlers.sendMessage`, `handlers.stopStreaming`, `handlers.onError`) and
the acquisition of the stream reader are recorded as an effect trace.
Errors are represented by their message string.  The scheduling model is the
single-threaded event loop of the source: operations interleave only at
`await` suspension points.
-/

namespace SecureRag

/-- Type `MessageRole` from types/chat.ts: "user" | "assistant" | "system". -/
inductive MessageRole where
  | user
  | assistant
  | system
  deriving DecidableEq, Repr

/-- Type `MessageStatus` from types/chat.ts:
"pending" | "streaming" | "completed" | "error" | "stopped". -/
inductive MessageStatus where
  | pending
  | streaming
  | completed
  | error
  | stopped
  deriving DecidableEq, Repr

/-- Type `Citation` from types/chat.ts. -/
structure Citation where
  document : String
  page : Option Nat
  chunkIndex : Nat
  relevanceScore : Nat
  url : Option String
  id : String
  deriving DecidableEq, Repr

instance : Inhabited Citation :=
  ⟨{ document := "", page := none, chunkIndex := 0, relevanceScore := 0,
     url := none, id := "" }⟩

/-- Type `ToolCall.state` from types/chat.ts. -/
inductive ToolCallState where
  | pending
  | executing
  | completed
  | error
  deriving DecidableEq, Repr

/-- Type `ToolCall` from types/chat.ts; the JSON `arguments` record is kept as an
opaque serialised string, no claim inspects it. -/
structure ToolCall where
  name : String
  arguments : String
  result : Option String
  error : Option String
  state : ToolCallState
  deriving DecidableEq, Repr

instance : Inhabited ToolCall :=
  ⟨{ name := "", arguments := "", result := none, error := none,
     state := ToolCallState.pending }⟩

/-- Token-usage counters from types/chat.ts (`MessageAnnotation.usage`). -/
structure Usage where
  prompt : Nat
  completion : Nat
  total : Nat
  deriving DecidableEq, Repr

/-- Type `MessageAnnotation` from types/chat.ts.  Optional fields are `Option`;
the `...(x && { x })` spreads in the source correspond to propagating the
`Option` value. -/
structure MessageAnnotation where
  citations : Option (List Citation)
  timestamp : String
  model : String
  usage : Option Usage
  reasoning : Option String
  deriving DecidableEq, Repr

/-- Type `ChatMessage` from types/chat.ts. -/
structure ChatMessage where
  id : String
  role : MessageRole
  content : String
  annotations : Option MessageAnnotation
  status : MessageStatus
  timestamp : String
  toolCalls : Option (List ToolCall)
  deriving DecidableEq, Repr

/-- The `type` discriminant of `StreamChunk` from types/chat.ts. -/
inductive ChunkType where
  | token
  | citation
  | reasoning
  | tool_call
  | error
  | done
  deriving DecidableEq, Repr

/-- Type `StreamChunk` from types/chat.ts: a record with a discriminant and
optional payload fields, exactly as on the wire. -/
structure StreamChunk where
  type : ChunkType
  content : Option String
  citation : Option Citation
  reasoning : Option String
  toolCall : Option ToolCall
  error : Option String
  sequence : Nat
  deriving DecidableEq, Repr

/-- Type `SendMessagePayload` from types/chat.ts, built in `sendMessage`. -/
structure SendMessagePayload where
  message : String
  dataSources : List String
  model : String
  conversationHistory : List ChatMessage
  conversationId : Option String
  deriving DecidableEq, Repr

/-- The hook state of `useAIChat`: `messages`, `isStreaming`, `isLoading`,
`error` (the `Error | null` slot, kept as its message string) and
`abortControllerRef.current` (kept as an opaque numeric handle). -/
structure ChatState where
  messages : List ChatMessage
  isStreaming : Bool
  isLoading : Bool
  error : Option String
  abortController : Option Nat
  deriving DecidableEq, Repr

/-- Observable interactions of the hook with its environment: the
`handlers.onError(err, context)` hook, the transport capabilities
`handlers.sendMessage(payload)` and `handlers.stopStreaming(controller)`,
and the reader-resource events of `processStream`
(`stream.getReader()` / a release, which the source never performs). -/
inductive Effect where
  | onError (message context : String)
  | transportSend (payload : SendMessagePayload)
  | transportStop (handle : Nat)
  | readerAcquired
  | readerReleased
  deriving DecidableEq, Repr

/-- One arm of the `switch (chunk.type)` in `processStream`, applied to a
single message: each `setMessages(prev => prev.map(msg => ...))` in the
source maps this function over the log.  `aid` is `assistantMessage.id`,
`modelId` is `selectedModel.id`, `now` stands for `new Date().toISOString()`. -/
def applyChunkMsg (modelId now aid : String) (chunk : StreamChunk)
    (msg : ChatMessage) : ChatMessage :=
  match chunk.type with
  | ChunkType.token =>
      if msg.id = aid then
        { msg with content := msg.content ++ chunk.content.getD "" }
      else msg
  | ChunkType.citation =>
      if msg.id = aid then
        let citations := (msg.annotations.bind (fun a => a.citations)).getD []
        { msg with annotations := some {
              timestamp := (msg.annotations.map (fun a => a.timestamp)).getD now,
              model := (msg.annotations.map (fun a => a.model)).getD modelId,
              citations := some (citations ++ [chunk.citation.get!]),
              usage := msg.annotations.bind (fun a => a.usage),
              reasoning := msg.annotations.bind (fun a => a.reasoning) } }
      else msg
  | ChunkType.reasoning =>
      if msg.id = aid then
        { msg with annotations := some {
              timestamp := (msg.annotations.map (fun a => a.timestamp)).getD now,
              model := (msg.annotations.map (fun a => a.model)).getD modelId,
              reasoning := chunk.reasoning,
              citations := msg.annotations.bind (fun a => a.citations),
              usage := msg.annotations.bind (fun a => a.usage) } }
      else msg
  | ChunkType.tool_call =>
      if msg.id = aid then
        { msg with toolCalls := some ((msg.toolCalls.getD []) ++ [chunk.toolCall.get!]) }
      else msg
  | ChunkType.error =>
      if msg.id = aid then { msg with status := MessageStatus.error } else msg
  | ChunkType.done =>
      if msg.id = aid then { msg with status := MessageStatus.completed } else msg

/-- One iteration of the `while (true)` read loop of `processStream` for a
chunk that was delivered (`done === false`): the full `switch`, including the
`setError` and `handlers.onError` calls of the `"error"` arm. -/
def processChunk (modelId now aid : String) (s : ChatState)
    (chunk : StreamChunk) : ChatState × List Effect :=
  match chunk.type with
  | ChunkType.error =>
      let errorMessage := chunk.error.getD "Unknown error"
      ({ s with
          error := some errorMessage,
          messages := s.messages.map (applyChunkMsg modelId now aid chunk) },
       [Effect.onError errorMessage "stream"])
  | _ =>
      ({ s with messages := s.messages.map (applyChunkMsg modelId now aid chunk) },
       [])

/-- The read loop of `processStream` over the list of chunks the stream
delivers before it closes (the loop exits only when `reader.read()` reports
`done: true`; no arm of the `switch` breaks out of the loop). -/
def processChunks (modelId now aid : String) (s : ChatState) :
    List StreamChunk → ChatState × List Effect
  | [] => (s, [])
  | c :: cs =>
      let r1 := processChunk modelId now aid s c
      let r2 := processChunks modelId now aid r1.1 cs
      (r2.1, r1.2 ++ r2.2)

/-- How a stream run ends: the stream closes normally (`reader.read()`
resolves with `done: true`), or a read throws (network failure, malformed
chunk), carrying the message of the resulting `Error`. -/
inductive Ending where
  | closed
  | threw (msg : String)
  deriving DecidableEq, Repr

/-- The `try`/`catch`/`finally` body of `processStream` after the reader has
been acquired: the read loop over `chunks`, then — on a thrown read error —
the `catch` block (sets the error slot, notifies
`handlers.onError(err, "stream")`, forces the target turn's status to
`error`), and in every case the `finally` block (clears `isStreaming` and
the abort handle). -/
def processStreamBody (modelId now aid : String) (s : ChatState)
    (chunks : List StreamChunk) (ending : Ending) : ChatState × List Effect :=
  let r := processChunks modelId now aid s chunks
  match ending with
  | Ending.closed =>
      ({ r.1 with isStreaming := false, abortController := none }, r.2)
  | Ending.threw msg =>
      let s2 : ChatState := { r.1 with
        error := some msg,
        messages := r.1.messages.map (fun m =>
          if m.id = aid then { m with status := MessageStatus.error } else m) }
      ({ s2 with isStreaming := false, abortController := none },
       r.2 ++ [Effect.onError msg "stream"])

/-- Function `processStream(stream, assistantMessage)` for a stream that delivers
`chunks` and then ends as `ending`.  `stream.getReader()` is recorded as
`readerAcquired`.  The source contains no `releaseLock`/`cancel` call, so no
`readerReleased` effect is ever emitted. -/
def processStream (modelId now aid : String) (s : ChatState)
    (chunks : List StreamChunk) (ending : Ending) : ChatState × List Effect :=
  let r := processStreamBody modelId now aid s chunks ending
  (r.1, Effect.readerAcquired :: r.2)

/-- Operation `stopStreaming` from the hook: if a controller is active, invoke the
transport's stop capability with it, clear `isStreaming` and the handle, and
mark every turn whose status is `"streaming"` as `"stopped"`; otherwise do
nothing. -/
def stopStreamingRun (s : ChatState) : ChatState × List Effect :=
  match s.abortController with
  | none => (s, [])
  | some h =>
      ({ s with
          isStreaming := false,
          abortController := none,
          messages := s.messages.map (fun m =>
            if m.status = MessageStatus.streaming
            then { m with status := MessageStatus.stopped } else m) },
       [Effect.transportStop h])

/-- The user turn created by `sendMessage` (`crypto.randomUUID()` is the
supplied fresh id `uid`, `new Date().toISOString()` is `now`). -/
def mkUserMessage (uid content now : String) : ChatMessage :=
  { id := uid, role := MessageRole.user, content := content,
    annotations := none, status := MessageStatus.completed,
    timestamp := now, toolCalls := none }

/-- The assistant placeholder created by `sendMessage`. -/
def mkAssistantPlaceholder (aid modelId now : String) : ChatMessage :=
  { id := aid, role := MessageRole.assistant, content := "",
    annotations := some
      { citations := none, timestamp := now, model := modelId,
        usage := none, reasoning := none },
    status := MessageStatus.streaming, timestamp := now, toolCalls := none }

/-- The outcome of `handlers.sendMessage(payload)`: the promise rejects
before any stream is obtained, or it resolves with a stream that delivers
`chunks` and then ends as `ending`. -/
inductive TransportOutcome where
  | rejected (msg : String)
  | streamed (chunks : List StreamChunk) (ending : Ending)
  deriving DecidableEq, Repr

/-- Operation `sendMessage(content)` from the hook.  `histCaptured` is the value of the
`messages` closure variable at the time the callback was created (React state
captured at call time — for a direct call it equals `s.messages`, for the
call made by `regenerateResponse` it is the pre-truncation log); the payload
is built from it.  `uid`/`aid` are the two fresh UUIDs, `handle` the fresh
`AbortController`.  On rejection the `catch` block clears the loading flags,
releases the handle, records the error, notifies
`handlers.onError(err, "sendMessage")` and marks the placeholder `error`. -/
def sendMessageRun (modelId now : String) (sources : List String)
    (uid aid : String) (handle : Nat) (histCaptured : List ChatMessage)
    (s : ChatState) (content : String) (outcome : TransportOutcome) :
    ChatState × List Effect :=
  let payload : SendMessagePayload :=
    { message := content, dataSources := sources, model := modelId,
      conversationHistory := histCaptured, conversationId := none }
  let s1 : ChatState :=
    { s with
        error := none,
        messages := s.messages ++ [mkUserMessage uid content now,
                                   mkAssistantPlaceholder aid modelId now],
        abortController := some handle,
        isStreaming := true,
        isLoading := true }
  match outcome with
  | TransportOutcome.rejected e =>
      ({ s1 with
          isLoading := false,
          isStreaming := false,
          abortController := none,
          error := some e,
          messages := s1.messages.map (fun m =>
            if m.id = aid then { m with status := MessageStatus.error } else m) },
       [Effect.transportSend payload, Effect.onError e "sendMessage"])
  | TransportOutcome.streamed chunks ending =>
      let r := processStream modelId now aid { s1 with isLoading := false } chunks ending
      (r.1, Effect.transportSend payload :: r.2)

/-- Operation `regenerateResponse(messageId)` from the hook: find the index of
`messageId`; silently return when absent; report through `handlers.onError`
(without touching the error slot) when the preceding turn is missing or not
a user turn; otherwise truncate the log to the turns strictly before the
index and re-issue `sendMessage` with the preceding user turn's content
(whose closure still captures the pre-truncation `messages`). -/
def regenerateRun (modelId now : String) (sources : List String)
    (uid aid : String) (handle : Nat) (s : ChatState) (messageId : String)
    (outcome : TransportOutcome) : ChatState × List Effect :=
  match s.messages.findIdx? (fun m => m.id = messageId) with
  | none => (s, [])
  | some i =>
      let userMessage := if i = 0 then none else s.messages.get? (i - 1)
      match userMessage with
      | none =>
          (s, [Effect.onError "Cannot regenerate: user message not found"
                 "regenerateResponse"])
      | some u =>
          if u.role = MessageRole.user then
            sendMessageRun modelId now sources uid aid handle s.messages
              { s with messages := s.messages.take i } u.content outcome
          else
            (s, [Effect.onError "Cannot regenerate: user message not found"
                   "regenerateResponse"])

/-- A stream run interrupted by cancellation: the event loop interleaves a
`stopStreaming()` call at one of the `await reader.read()` suspension points,
after `pre` chunks have been applied and before `post` are.  The read loop
itself never consults the abort controller, so it continues over `post`
until `ending`; the `finally` clause then runs as usual. -/
def cancelledRun (modelId now aid : String) (s : ChatState)
    (pre post : List StreamChunk) (ending : Ending) : ChatState × List Effect :=
  let r1 := processChunks modelId now aid s pre
  let r2 := stopStreamingRun r1.1
  let r3 := processStreamBody modelId now aid r2.1 post ending
  (r3.1, Effect.readerAcquired :: (r1.2 ++ r2.2 ++ r3.2))

/-- The cumulative effect of a chunk list on a single message: the read loop
folds `applyChunkMsg` over the delivered chunks. -/
def applyChunks (modelId now aid : String) (cs : List StreamChunk)
    (m : ChatMessage) : ChatMessage :=
  cs.foldl (fun m c => applyChunkMsg modelId now aid c m) m

/-- The text accumulated from the `token` chunks of a list, in delivery
order (`chunk.content ?? ""` per token chunk, nothing for other types). -/
def tokensText : List StreamChunk → String
  | [] => ""
  | c :: cs =>
      (if c.type = ChunkType.token then c.content.getD "" else "") ++ tokensText cs

/-- The status the chunk list leaves on the target turn, starting from
`st`: each `error` chunk sets `error`, each `done` chunk sets `completed`,
all other chunks leave the status alone — so the last status-setting chunk
of the list wins. -/
def statusAfter (cs : List StreamChunk) (st : MessageStatus) : MessageStatus :=
  cs.foldl (fun st c =>
    match c.type with
    | ChunkType.error => MessageStatus.error
    | ChunkType.done => MessageStatus.completed
    | _ => st) st

/-- The value of the `error` slot after a chunk list, starting from `e`:
each `error` chunk overwrites it with `chunk.error ?? "Unknown error"`. -/
def errorAfter (cs : List StreamChunk) (e : Option String) : Option String :=
  cs.foldl (fun acc c =>
    if c.type = ChunkType.error then some (c.error.getD "Unknown error") else acc) e

/-- The effect trace of the read loop: one `onError(_, "stream")` call per
`error` chunk, nothing else. -/
def chunkEffects (cs : List StreamChunk) : List Effect :=
  cs.filterMap (fun c =>
    if c.type = ChunkType.error
    then some (Effect.onError (c.error.getD "Unknown error") "stream")
    else none)

/-- Convenience constructors for concrete stream chunks. -/
def tokenChunk (t : String) (n : Nat) : StreamChunk :=
  { type := ChunkType.token, content := some t, citation := none,
    reasoning := none, toolCall := none, error := none, sequence := n }

def doneChunk (n : Nat) : StreamChunk :=
  { type := ChunkType.done, content := none, citation := none,
    reasoning := none, toolCall := none, error := none, sequence := n }

def errorChunk (e : String) (n : Nat) : StreamChunk :=
  { type := ChunkType.error, content := none, citation := none,
    reasoning := none, toolCall := none, error := some e, sequence := n }

/-- A hook state in the middle of `sendMessage`, just before `processStream`
starts: the log holds the freshly created assistant placeholder, streaming is
active and the fresh abort controller `h` is held. -/
def streamingState (aid modelId now : String) (h : Nat) : ChatState :=
  { messages := [mkAssistantPlaceholder aid modelId now],
    isStreaming := true, isLoading := false, error := none,
    abortController := some h }

/-- The cumulative per-message transformation performed by
`processStreamBody`: the chunk fold, followed — when the read threw — by the
`catch` block's status override of the target turn. -/
def streamMsgUpd (modelId now aid : String) (chunks : List StreamChunk)
    (ending : Ending) (m : ChatMessage) : ChatMessage :=
  match ending with
  | Ending.closed => applyChunks modelId now aid chunks m
  | Ending.threw _ =>
      let m1 := applyChunks modelId now aid chunks m
      if m1.id = aid then { m1 with status := MessageStatus.error } else m1

/-! ### Basic lemmas about a single chunk application -/

theorem applyChunkMsg_id (modelId now aid : String) (c : StreamChunk)
    (m : ChatMessage) : (applyChunkMsg modelId now aid c m).id = m.id := by
  unfold applyChunkMsg
  rcases c with ⟨t, co, ci, re, tc, er, sq⟩
  cases t <;> simp <;> split <;> rfl

theorem applyChunkMsg_other (modelId now aid : String) (c : StreamChunk)
    (m : ChatMessage) (h : ¬ m.id = aid) :
    applyChunkMsg modelId now aid c m = m := by
  unfold applyChunkMsg
  rcases c with ⟨t, co, ci, re, tc, er, sq⟩
  cases t <;> simp [h]

theorem applyChunkMsg_status (modelId now aid : String) (c : StreamChunk)
    (m : ChatMessage) (h : m.id = aid) :
    (applyChunkMsg modelId now aid c m).status =
      match c.type with
      | ChunkType.error => MessageStatus.error
      | ChunkType.done => MessageStatus.completed
      | _ => m.status := by
  unfold applyChunkMsg
  rcases c with ⟨t, co, ci, re, tc, er, sq⟩
  cases t <;> simp [h]

theorem applyChunkMsg_content (modelId now aid : String) (c : StreamChunk)
    (m : ChatMessage) (h : m.id = aid) :
    (applyChunkMsg modelId now aid c m).content =
      m.content ++ (if c.type = ChunkType.token then c.content.getD "" else "") := by
  unfold applyChunkMsg
  rcases c with ⟨t, co, ci, re, tc, er, sq⟩
  cases t <;> simp [h]

/-! ### Lemmas about the chunk fold on a single message -/

theorem applyChunks_cons (modelId now aid : String) (c : StreamChunk)
    (cs : List StreamChunk) (m : ChatMessage) :
    applyChunks modelId now aid (c :: cs) m =
      applyChunks modelId now aid cs (applyChunkMsg modelId now aid c m) := rfl

theorem applyChunks_id (modelId now aid : String) (cs : List StreamChunk)
    (m : ChatMessage) : (applyChunks modelId now aid cs m).id = m.id := by
  induction cs generalizing m with
  | nil => rfl
  | cons c cs ih =>
      rw [applyChunks_cons, ih, applyChunkMsg_id]

theorem applyChunks_other (modelId now aid : String) (cs : List StreamChunk)
    (m : ChatMessage) (h : ¬ m.id = aid) :
    applyChunks modelId now aid cs m = m := by
  induction cs generalizing m with
  | nil => rfl
  | cons c cs ih =>
      rw [applyChunks_cons, applyChunkMsg_other _ _ _ _ _ h, ih _ h]

theorem applyChunks_status (modelId now aid : String) (cs : List StreamChunk)
    (m : ChatMessage) (h : m.id = aid) :
    (applyChunks modelId now aid cs m).status = statusAfter cs m.status := by
  induction cs generalizing m with
  | nil => rfl
  | cons c cs ih =>
      rw [applyChunks_cons]
      have hid : (applyChunkMsg modelId now aid c m).id = aid := by
        rw [applyChunkMsg_id]; exact h
      rw [ih _ hid, applyChunkMsg_status _ _ _ _ _ h]
      rcases c with ⟨t, co, ci, re, tc, er, sq⟩
      cases t <;> rfl

theorem applyChunks_content (modelId now aid : String) (cs : List StreamChunk)
    (m : ChatMessage) (h : m.id = aid) :
    (applyChunks modelId now aid cs m).content = m.content ++ tokensText cs := by
  induction cs generalizing m with
  | nil => simp [applyChunks, tokensText]
  | cons c cs ih =>
      rw [applyChunks_cons]
      have hid : (applyChunkMsg modelId now aid c m).id = aid := by
        rw [applyChunkMsg_id]; exact h
      rw [ih _ hid, applyChunkMsg_content _ _ _ _ _ h, tokensText,
        String.append_assoc]

/-! ### Lemmas about the read loop at the state level -/

theorem processChunk_fst (modelId now aid : String) (s : ChatState)
    (c : StreamChunk) :
    (processChunk modelId now aid s c).1 =
      { s with
          messages := s.messages.map (applyChunkMsg modelId now aid c),
          error := if c.type = ChunkType.error
                   then some (c.error.getD "Unknown error") else s.error } := by
  unfold processChunk
  rcases c with ⟨t, co, ci, re, tc, er, sq⟩
  cases t <;> rfl

theorem processChunk_snd (modelId now aid : String) (s : ChatState)
    (c : StreamChunk) :
    (processChunk modelId now aid s c).2 =
      if c.type = ChunkType.error
      then [Effect.onError (c.error.getD "Unknown error") "stream"] else [] := by
  unfold processChunk
  rcases c with ⟨t, co, ci, re, tc, er, sq⟩
  cases t <;> rfl

theorem processChunks_fst (modelId now aid : String) (cs : List StreamChunk)
    (s : ChatState) :
    (processChunks modelId now aid s cs).1 =
      { s with
          messages := s.messages.map (applyChunks modelId now aid cs),
          error := errorAfter cs s.error } := by
  induction cs generalizing s with
  | nil =>
      show s = _
      rw [show applyChunks modelId now aid [] = fun m => m from rfl,
        List.map_id']
      rfl
  | cons c cs ih =>
      show (processChunks modelId now aid (processChunk modelId now aid s c).1 cs).1 = _
      rw [ih, processChunk_fst]
      simp only [List.map_map]
      rfl

theorem processChunks_snd (modelId now aid : String) (cs : List StreamChunk)
    (s : ChatState) :
    (processChunks modelId now aid s cs).2 = chunkEffects cs := by
  induction cs generalizing s with
  | nil => rfl
  | cons c cs ih =>
      show (processChunk modelId now aid s c).2 ++
        (processChunks modelId now aid (processChunk modelId now aid s c).1 cs).2 = _
      rw [ih, processChunk_snd]
      by_cases hc : c.type = ChunkType.error <;>
        simp [chunkEffects, List.filterMap_cons, hc]

/-! ### Auxiliary facts -/

theorem string_join_cons (a : String) (ts : List String) :
    String.join (a :: ts) = a ++ String.join ts := by
  have key : ∀ (l : List String) (x : String),
      l.foldl (· ++ ·) x = x ++ l.foldl (· ++ ·) "" := by
    intro l
    induction l with
    | nil => intro x; simp
    | cons b l ih =>
        intro x
        simp only [List.foldl_cons]
        rw [ih (x ++ b), ih ("" ++ b)]
        simp [String.append_assoc]
  show (a :: ts).foldl (· ++ ·) "" = a ++ ts.foldl (· ++ ·) ""
  simp only [List.foldl_cons]
  rw [key ts ("" ++ a)]
  simp

theorem applyChunkMsg_role (modelId now aid : String) (c : StreamChunk)
    (m : ChatMessage) : (applyChunkMsg modelId now aid c m).role = m.role := by
  unfold applyChunkMsg
  rcases c with ⟨t, co, ci, re, tc, er, sq⟩
  cases t <;> simp <;> split <;> rfl

theorem applyChunks_role (modelId now aid : String) (cs : List StreamChunk)
    (m : ChatMessage) : (applyChunks modelId now aid cs m).role = m.role := by
  induction cs generalizing m with
  | nil => rfl
  | cons c cs ih => rw [applyChunks_cons, ih, applyChunkMsg_role]

theorem statusAfter_append (cs ds : List StreamChunk) (st : MessageStatus) :
    statusAfter (cs ++ ds) st = statusAfter ds (statusAfter cs st) := by
  simp [statusAfter, List.foldl_append]

theorem statusAfter_no_terminal (cs : List StreamChunk) (st : MessageStatus)
    (h : ∀ c ∈ cs, c.type ≠ ChunkType.error ∧ c.type ≠ ChunkType.done) :
    statusAfter cs st = st := by
  induction cs generalizing st with
  | nil => rfl
  | cons c cs ih =>
      have hc := h c (List.mem_cons_self c cs)
      have hrest : ∀ x ∈ cs, x.type ≠ ChunkType.error ∧ x.type ≠ ChunkType.done :=
        fun x hx => h x (List.mem_cons_of_mem c hx)
      show statusAfter cs _ = st
      rw [ih _ hrest]
      rcases c with ⟨t, co, ci, re, tc, er, sq⟩
      cases t <;> simp_all

theorem tokensText_of_tokens (ts : List String) (n : Nat) :
    tokensText (ts.map (fun t => tokenChunk t n)) = String.join ts := by
  induction ts with
  | nil => simp [tokensText, String.join]
  | cons a ts ih =>
      rw [List.map_cons, tokensText, ih, string_join_cons]
      simp [tokenChunk]

theorem errorAfter_append (cs ds : List StreamChunk) (e : Option String) :
    errorAfter (cs ++ ds) e = errorAfter ds (errorAfter cs e) := by
  simp [errorAfter, List.foldl_append]

theorem chunkEffects_append (cs ds : List StreamChunk) :
    chunkEffects (cs ++ ds) = chunkEffects cs ++ chunkEffects ds := by
  simp [chunkEffects]

theorem chunkEffects_all_onError (cs : List StreamChunk) :
    ∀ e ∈ chunkEffects cs, ∃ m c, e = Effect.onError m c := by
  intro e he
  simp only [chunkEffects, List.mem_filterMap] at he
  obtain ⟨c, _, hc⟩ := he
  by_cases hct : c.type = ChunkType.error
  · rw [if_pos hct] at hc
    exact ⟨_, _, (Option.some_injective _ hc).symm⟩
  · rw [if_neg hct] at hc
    exact absurd hc (by simp)

/-! ### Lemmas about `processStreamBody` -/

theorem processStreamBody_messages (modelId now aid : String) (s : ChatState)
    (chunks : List StreamChunk) (ending : Ending) :
    (processStreamBody modelId now aid s chunks ending).1.messages =
      s.messages.map (streamMsgUpd modelId now aid chunks ending) := by
  cases ending with
  | closed =>
      show (processChunks modelId now aid s chunks).1.messages = _
      rw [processChunks_fst]
      rfl
  | threw msg =>
      show (processChunks modelId now aid s chunks).1.messages.map _ = _
      rw [processChunks_fst]
      simp only [List.map_map]
      rfl

theorem processStreamBody_flags (modelId now aid : String) (s : ChatState)
    (chunks : List StreamChunk) (ending : Ending) :
    (processStreamBody modelId now aid s chunks ending).1.isStreaming = false ∧
    (processStreamBody modelId now aid s chunks ending).1.abortController = none := by
  cases ending <;> exact ⟨rfl, rfl⟩

theorem processStreamBody_error (modelId now aid : String) (s : ChatState)
    (chunks : List StreamChunk) (ending : Ending) :
    (processStreamBody modelId now aid s chunks ending).1.error =
      match ending with
      | Ending.closed => errorAfter chunks s.error
      | Ending.threw msg => some msg := by
  cases ending with
  | closed =>
      show (processChunks modelId now aid s chunks).1.error = _
      rw [processChunks_fst]
  | threw msg => rfl

theorem processStreamBody_snd (modelId now aid : String) (s : ChatState)
    (chunks : List StreamChunk) (ending : Ending) :
    (processStreamBody modelId now aid s chunks ending).2 =
      chunkEffects chunks ++
        (match ending with
         | Ending.closed => []
         | Ending.threw msg => [Effect.onError msg "stream"]) := by
  cases ending with
  | closed =>
      show (processChunks modelId now aid s chunks).2 = _
      rw [processChunks_snd]
      simp
  | threw msg =>
      show (processChunks modelId now aid s chunks).2 ++ _ = _
      rw [processChunks_snd]

/-! ### Lemmas about the per-message stream transformation -/

theorem streamMsgUpd_id (modelId now aid : String) (chunks : List StreamChunk)
    (ending : Ending) (m : ChatMessage) :
    (streamMsgUpd modelId now aid chunks ending m).id = m.id := by
  cases ending with
  | closed => exact applyChunks_id ..
  | threw msg =>
      simp only [streamMsgUpd]
      split <;> simp [applyChunks_id]

theorem streamMsgUpd_role (modelId now aid : String) (chunks : List StreamChunk)
    (ending : Ending) (m : ChatMessage) :
    (streamMsgUpd modelId now aid chunks ending m).role = m.role := by
  cases ending with
  | closed => exact applyChunks_role ..
  | threw msg =>
      simp only [streamMsgUpd]
      split <;> simp [applyChunks_role]

theorem streamMsgUpd_other (modelId now aid : String) (chunks : List StreamChunk)
    (ending : Ending) (m : ChatMessage) (h : ¬ m.id = aid) :
    streamMsgUpd modelId now aid chunks ending m = m := by
  cases ending with
  | closed => exact applyChunks_other _ _ _ _ _ h
  | threw msg =>
      show (let m1 := applyChunks modelId now aid chunks m
            if m1.id = aid then { m1 with status := MessageStatus.error } else m1) = m
      rw [applyChunks_other _ _ _ _ _ h]
      simp [h]

theorem streamMsgUpd_content (modelId now aid : String)
    (chunks : List StreamChunk) (ending : Ending) (m : ChatMessage)
    (h : m.id = aid) :
    (streamMsgUpd modelId now aid chunks ending m).content =
      m.content ++ tokensText chunks := by
  cases ending with
  | closed => exact applyChunks_content _ _ _ _ _ h
  | threw msg =>
      simp only [streamMsgUpd]
      split <;> simp [applyChunks_content modelId now aid chunks m h]

theorem streamMsgUpd_status (modelId now aid : String)
    (chunks : List StreamChunk) (ending : Ending) (m : ChatMessage)
    (h : m.id = aid) :
    (streamMsgUpd modelId now aid chunks ending m).status =
      match ending with
      | Ending.closed => statusAfter chunks m.status
      | Ending.threw _ => MessageStatus.error := by
  cases ending with
  | closed => exact applyChunks_status _ _ _ _ _ h
  | threw _ =>
      show (let m1 := applyChunks modelId now aid chunks m
            if m1.id = aid then { m1 with status := MessageStatus.error } else m1).status = _
      have hid : (applyChunks modelId now aid chunks m).id = aid := by
        rw [applyChunks_id]; exact h
      simp [hid]

/-! ### Further helper lemmas -/

theorem processStreamBody_no_reader (modelId now aid : String) (s : ChatState)
    (chunks : List StreamChunk) (ending : Ending) :
    ∀ e ∈ (processStreamBody modelId now aid s chunks ending).2,
      e ≠ Effect.readerAcquired ∧ e ≠ Effect.readerReleased := by
  intro e he
  rw [processStreamBody_snd] at he
  rcases List.mem_append.mp he with h1 | h2
  · obtain ⟨m, c, rfl⟩ := chunkEffects_all_onError _ _ h1
    exact ⟨by simp, by simp⟩
  · cases ending with
    | closed => simp at h2
    | threw msg =>
        simp at h2
        subst h2
        exact ⟨by simp, by simp⟩

theorem stopStreamingRun_snd_stop (s : ChatState) :
    ∀ e ∈ (stopStreamingRun s).2, ∃ h, e = Effect.transportStop h := by
  rcases habort : s.abortController with _ | h <;>
    simp [stopStreamingRun, habort]

theorem processChunks_no_reader (modelId now aid : String) (s : ChatState)
    (cs : List StreamChunk) :
    ∀ e ∈ (processChunks modelId now aid s cs).2,
      e ≠ Effect.readerAcquired ∧ e ≠ Effect.readerReleased := by
  intro e he
  rw [processChunks_snd] at he
  obtain ⟨m, c, rfl⟩ := chunkEffects_all_onError _ _ he
  exact ⟨by simp, by simp⟩

/-! ### Claim C4 -/

/-- C4: applying any sequence of `token` chunks `[t1, ..., tn]` in delivery
order to a fresh assistant placeholder (content initially empty) leaves the
turn's content equal to the concatenation `t1 ++ ... ++ tn`, however the
text is split across chunk boundaries. -/
theorem token_chunks_content_concat (modelId now aid : String) (h n : Nat)
    (ts : List String) :
    ((processStream modelId now aid (streamingState aid modelId now h)
        (ts.map (fun t => tokenChunk t n)) Ending.closed).1.messages.map
        (fun m => m.content)) = [String.join ts] := by
  show ((processStreamBody modelId now aid (streamingState aid modelId now h)
      (ts.map (fun t => tokenChunk t n)) Ending.closed).1.messages.map
      (fun m => m.content)) = _
  rw [processStreamBody_messages]
  show [(streamMsgUpd modelId now aid (ts.map (fun t => tokenChunk t n))
      Ending.closed (mkAssistantPlaceholder aid modelId now)).content] = _
  rw [streamMsgUpd_content modelId now aid (ts.map (fun t => tokenChunk t n))
    Ending.closed (mkAssistantPlaceholder aid modelId now) rfl,
    tokensText_of_tokens]
  show ["" ++ String.join ts] = _
  simp

/-! ### Claim C1 -/

/-- C1 counterexample: the stream delivers `error{"boom"}`, then
`token{"x"}`, then `done`.  The claim says that once the terminal `error`
chunk has been applied no further chunk is read or applied and first-seen
wins; the code's read loop only exits when the stream closes, so the later
`token` chunk is still appended (content `"x"`, not `""`) and the later
`done` chunk overwrites the status with `completed` (not `error`). -/
theorem processStream_terminal_chunk_cex :
    ((processStream "gpt" "t0" "a1" (streamingState "a1" "gpt" "t0" 7)
        [errorChunk "boom" 0, tokenChunk "x" 1, doneChunk 2]
        Ending.closed).1.messages.map (fun m => (m.content, m.status))) =
      [("x", MessageStatus.completed)] ∧
    (processStream "gpt" "t0" "a1" (streamingState "a1" "gpt" "t0" 7)
        [errorChunk "boom" 0, tokenChunk "x" 1, doneChunk 2]
        Ending.closed).1.error = some "boom" := by
  exact ⟨rfl, rfl⟩

/-- C1 (amended): the consumer reads the whole stream until closure — a
terminal chunk does not stop it.  For every delivered chunk list, every
`token` chunk (before or after a terminal chunk) contributes to the target
turn's content, and the final status is the one set by the LAST
status-setting (`error`/`done`) chunk of the list: last-seen wins, first-seen
does not. -/
theorem processStream_reads_entire_stream (modelId now aid : String) (h : Nat)
    (chunks : List StreamChunk) :
    ((processStream modelId now aid (streamingState aid modelId now h) chunks
        Ending.closed).1.messages.map (fun m => (m.content, m.status))) =
      [(tokensText chunks, statusAfter chunks MessageStatus.streaming)] := by
  show ((processStreamBody modelId now aid (streamingState aid modelId now h)
      chunks Ending.closed).1.messages.map (fun m => (m.content, m.status))) = _
  rw [processStreamBody_messages]
  show [((streamMsgUpd modelId now aid chunks Ending.closed
      (mkAssistantPlaceholder aid modelId now)).content,
    (streamMsgUpd modelId now aid chunks Ending.closed
      (mkAssistantPlaceholder aid modelId now)).status)] = _
  rw [streamMsgUpd_content modelId now aid chunks Ending.closed
    (mkAssistantPlaceholder aid modelId now) rfl,
    streamMsgUpd_status modelId now aid chunks Ending.closed
    (mkAssistantPlaceholder aid modelId now) rfl]
  show [("" ++ tokensText chunks, statusAfter chunks MessageStatus.streaming)] = _
  simp

/-! ### Claim C9 -/

/-- C9 counterexample: already on the simplest exit path — an empty stream
that closes normally — the reader resource acquired by `stream.getReader()`
is never released: the effect trace holds the acquisition and zero release
events, not the exactly-one release the claim requires. -/
theorem reader_release_count_cex :
    (processStream "gpt" "t0" "a1" (streamingState "a1" "gpt" "t0" 7)
        [] Ending.closed).2 = [Effect.readerAcquired] ∧
    (processStream "gpt" "t0" "a1" (streamingState "a1" "gpt" "t0" 7)
        [] Ending.closed).2.count Effect.readerReleased = 0 := by
  exact ⟨rfl, rfl⟩

/-- C9 (amended): on every exit path of the read loop — normal closure, a
thrown read error, and external cancellation — the reader is acquired
exactly once and never released: `useAIChat.processStream` contains no
`releaseLock`/`cancel` call, so the release count is 0 on all paths, not 1. -/
theorem reader_acquired_never_released (modelId now aid : String)
    (s : ChatState) (chunks pre post : List StreamChunk) (e1 e2 : Ending) :
    ((processStream modelId now aid s chunks e1).2.count
        Effect.readerAcquired = 1 ∧
     (processStream modelId now aid s chunks e1).2.count
        Effect.readerReleased = 0) ∧
    ((cancelledRun modelId now aid s pre post e2).2.count
        Effect.readerAcquired = 1 ∧
     (cancelledRun modelId now aid s pre post e2).2.count
        Effect.readerReleased = 0) := by
  constructor
  · have hno := processStreamBody_no_reader modelId now aid s chunks e1
    constructor
    · show ((Effect.readerAcquired ::
        (processStreamBody modelId now aid s chunks e1).2).count
          Effect.readerAcquired) = 1
      rw [List.count_cons_self]
      rw [List.count_eq_zero.mpr (fun hmem => (hno _ hmem).1 rfl)]
    · apply List.count_eq_zero.mpr
      intro hmem
      rcases List.mem_cons.mp hmem with heq | hmem2
      · exact absurd heq (by simp)
      · exact (hno _ hmem2).2 rfl
  · have hpre := processChunks_no_reader modelId now aid s pre
    have hstop := stopStreamingRun_snd_stop
      (processChunks modelId now aid s pre).1
    have hbody := processStreamBody_no_reader modelId now aid
      (stopStreamingRun (processChunks modelId now aid s pre).1).1 post e2
    have htail : ∀ e ∈ (processChunks modelId now aid s pre).2 ++
        (stopStreamingRun (processChunks modelId now aid s pre).1).2 ++
        (processStreamBody modelId now aid
          (stopStreamingRun (processChunks modelId now aid s pre).1).1 post e2).2,
        e ≠ Effect.readerAcquired ∧ e ≠ Effect.readerReleased := by
      intro e he
      rcases List.mem_append.mp he with h12 | h3
      · rcases List.mem_append.mp h12 with h1 | h2
        · exact hpre _ h1
        · obtain ⟨hh, rfl⟩ := hstop _ h2
          exact ⟨by simp, by simp⟩
      · exact hbody _ h3
    constructor
    · show ((Effect.readerAcquired :: _).count Effect.readerAcquired) = 1
      rw [List.count_cons_self]
      rw [List.count_eq_zero.mpr (fun hmem => (htail _ hmem).1 rfl)]
    · apply List.count_eq_zero.mpr
      intro hmem
      rcases List.mem_cons.mp hmem with heq | hmem2
      · exact absurd heq (by simp)
      · exact (htail _ hmem2).2 rfl

/-! ### Helpers for cancellation runs -/

theorem closed_run_status (modelId now aid : String) (h : Nat)
    (chunks : List StreamChunk) :
    ((processStream modelId now aid (streamingState aid modelId now h) chunks
        Ending.closed).1.messages.map (fun m => m.status)) =
      [statusAfter chunks MessageStatus.streaming] := by
  show ((processStreamBody modelId now aid (streamingState aid modelId now h)
      chunks Ending.closed).1.messages.map (fun m => m.status)) = _
  rw [processStreamBody_messages]
  show [(streamMsgUpd modelId now aid chunks Ending.closed
      (mkAssistantPlaceholder aid modelId now)).status] = _
  rw [streamMsgUpd_status modelId now aid chunks Ending.closed
    (mkAssistantPlaceholder aid modelId now) rfl]
  rfl

theorem stop_after_prefix (modelId now aid : String) (h : Nat)
    (pre : List StreamChunk)
    (hpre : ∀ c ∈ pre, c.type ≠ ChunkType.error ∧ c.type ≠ ChunkType.done) :
    stopStreamingRun (processChunks modelId now aid
        (streamingState aid modelId now h) pre).1 =
      ({ messages := [{ applyChunks modelId now aid pre
            (mkAssistantPlaceholder aid modelId now) with
            status := MessageStatus.stopped }],
         isStreaming := false, isLoading := false,
         error := errorAfter pre none, abortController := none },
       [Effect.transportStop h]) := by
  have hmsgs : (processChunks modelId now aid
      (streamingState aid modelId now h) pre).1 =
      { messages := [applyChunks modelId now aid pre
          (mkAssistantPlaceholder aid modelId now)],
        isStreaming := true, isLoading := false,
        error := errorAfter pre none, abortController := some h } := by
    rw [processChunks_fst]
    rfl
  have hstatus : (applyChunks modelId now aid pre
      (mkAssistantPlaceholder aid modelId now)).status =
      MessageStatus.streaming := by
    rw [applyChunks_status modelId now aid pre
      (mkAssistantPlaceholder aid modelId now) rfl]
    exact statusAfter_no_terminal pre _ hpre
  rw [hmsgs]
  simp [stopStreamingRun, hstatus]

/-! ### Claim C2 -/

/-- C2 counterexample: a run interrupted by cancellation — the transport's
stop capability fires after `token{"Par"}` — whose stream afterwards still
delivers a `done` chunk ends with status `completed`, not `stopped`: the
read loop never consults the cancellation handle, so "interrupted by
cancellation ⟹ final status `stopped`" fails and the three terminal
outcomes are not mutually exclusive. -/
theorem cancelled_run_done_overrides_cex :
    ((cancelledRun "gpt" "t0" "a1" (streamingState "a1" "gpt" "t0" 7)
        [tokenChunk "Par" 0] [doneChunk 1] Ending.closed).2.contains
        (Effect.transportStop 7) = true) ∧
    ((cancelledRun "gpt" "t0" "a1" (streamingState "a1" "gpt" "t0" 7)
        [tokenChunk "Par" 0] [doneChunk 1] Ending.closed).1.messages.map
        (fun m => m.status)) = [MessageStatus.completed] := by
  exact ⟨rfl, rfl⟩

/-- C2 (amended): for a run that is not cancelled, a delivery ending in a
`done` chunk leaves the target turn `completed` and one ending in an `error`
chunk leaves it `error`; a cancellation after which the stream delivers no
further chunk leaves it `stopped`.  The three outcomes are not mutually
exclusive: chunks delivered after a cancellation are still processed, and a
terminal chunk arriving then overrides `stopped` (see the counterexample). -/
theorem terminal_status_outcomes (modelId now aid : String) (h n : Nat)
    (e : String) (body pre : List StreamChunk)
    (hpre : ∀ c ∈ pre, c.type ≠ ChunkType.error ∧ c.type ≠ ChunkType.done) :
    (((processStream modelId now aid (streamingState aid modelId now h)
        (body ++ [doneChunk n]) Ending.closed).1.messages.map
        (fun m => m.status)) = [MessageStatus.completed]) ∧
    (((processStream modelId now aid (streamingState aid modelId now h)
        (body ++ [errorChunk e n]) Ending.closed).1.messages.map
        (fun m => m.status)) = [MessageStatus.error]) ∧
    (((cancelledRun modelId now aid (streamingState aid modelId now h)
        pre [] Ending.closed).1.messages.map
        (fun m => m.status)) = [MessageStatus.stopped]) := by
  refine ⟨?_, ?_, ?_⟩
  · rw [closed_run_status, statusAfter_append]
    rfl
  · rw [closed_run_status, statusAfter_append]
    rfl
  · show ((processStreamBody modelId now aid
        (stopStreamingRun (processChunks modelId now aid
          (streamingState aid modelId now h) pre).1).1 []
        Ending.closed).1.messages.map (fun m => m.status)) = _
    rw [processStreamBody_messages, stop_after_prefix modelId now aid h pre hpre]
    rfl

/-- Witness for C2: the cancellation clause at the concrete run that stops
after `token{"Par"}` with nothing delivered afterwards. -/
theorem terminal_status_outcomes_witness :
    ((cancelledRun "gpt" "t0" "a1" (streamingState "a1" "gpt" "t0" 7)
        [tokenChunk "Par" 0] [] Ending.closed).1.messages.map
        (fun m => m.status)) = [MessageStatus.stopped] :=
  (terminal_status_outcomes "gpt" "t0" "a1" 7 0 "e" []
    [tokenChunk "Par" 0] (by decide)).2.2

/-! ### Claim C3 -/

/-- C3 counterexample: the cancellation handle fires after `token{"a"}`;
the stream then delivers `token{"b"}` and `done`.  The claim says the
consumer stops reading and no chunk delivered after the cancellation is
applied, with final status `stopped`; in the code the loop keeps reading, so
`"b"` is appended (content `"ab"`) and the `done` chunk flips the status to
`completed`. -/
theorem post_cancellation_chunk_applied_cex :
    ((cancelledRun "gpt" "t0" "a1" (streamingState "a1" "gpt" "t0" 7)
        [tokenChunk "a" 0] [tokenChunk "b" 1, doneChunk 2]
        Ending.closed).1.messages.map (fun m => (m.content, m.status))) =
      [("ab", MessageStatus.completed)] := rfl

/-- C3 (amended): when the cancellation handle fires during the read loop,
`stopStreaming` marks the streaming turn `stopped` at that instant, invokes
the transport's stop capability once, and releases the handle (and the
operation itself does not throw — `stopStreamingRun` is a total function);
but the consumer does NOT stop reading: every chunk delivered after the
cancellation is still applied, so the final content also collects the
post-cancellation tokens, and the final status is whatever the
post-cancellation chunks leave, starting from `stopped`. -/
theorem cancellation_stops_turn_but_not_reading (modelId now aid : String)
    (h : Nat) (pre post : List StreamChunk)
    (hpre : ∀ c ∈ pre, c.type ≠ ChunkType.error ∧ c.type ≠ ChunkType.done) :
    ((stopStreamingRun (processChunks modelId now aid
        (streamingState aid modelId now h) pre).1).1.abortController = none) ∧
    ((stopStreamingRun (processChunks modelId now aid
        (streamingState aid modelId now h) pre).1).1.messages.map
        (fun m => m.status) = [MessageStatus.stopped]) ∧
    ((stopStreamingRun (processChunks modelId now aid
        (streamingState aid modelId now h) pre).1).2 =
      [Effect.transportStop h]) ∧
    (((cancelledRun modelId now aid (streamingState aid modelId now h)
        pre post Ending.closed).1.messages.map
        (fun m => (m.content, m.status))) =
      [(tokensText pre ++ tokensText post,
        statusAfter post MessageStatus.stopped)]) := by
  have hstop := stop_after_prefix modelId now aid h pre hpre
  refine ⟨by rw [hstop], by rw [hstop]; rfl, by rw [hstop], ?_⟩
  show ((processStreamBody modelId now aid
      (stopStreamingRun (processChunks modelId now aid
        (streamingState aid modelId now h) pre).1).1 post
      Ending.closed).1.messages.map (fun m => (m.content, m.status))) = _
  rw [processStreamBody_messages, hstop]
  show [((streamMsgUpd modelId now aid post Ending.closed
      { applyChunks modelId now aid pre
          (mkAssistantPlaceholder aid modelId now) with
        status := MessageStatus.stopped }).content,
    (streamMsgUpd modelId now aid post Ending.closed
      { applyChunks modelId now aid pre
          (mkAssistantPlaceholder aid modelId now) with
        status := MessageStatus.stopped }).status)] = _
  have hid : ({ applyChunks modelId now aid pre
      (mkAssistantPlaceholder aid modelId now) with
      status := MessageStatus.stopped } : ChatMessage).id = aid := by
    show (applyChunks modelId now aid pre
      (mkAssistantPlaceholder aid modelId now)).id = aid
    rw [applyChunks_id]
    rfl
  rw [streamMsgUpd_content modelId now aid post Ending.closed _ hid,
    streamMsgUpd_status modelId now aid post Ending.closed _ hid]
  have hcontent : ({ applyChunks modelId now aid pre
      (mkAssistantPlaceholder aid modelId now) with
      status := MessageStatus.stopped } : ChatMessage).content =
      tokensText pre := by
    show (applyChunks modelId now aid pre
      (mkAssistantPlaceholder aid modelId now)).content = _
    rw [applyChunks_content modelId now aid pre
      (mkAssistantPlaceholder aid modelId now) rfl]
    simp [mkAssistantPlaceholder]
  rw [hcontent]

/-- Witness for C3: the amended statement at the concrete run that cancels
after `token{"a"}` and then still receives `token{"b"}` and `done`. -/
theorem cancellation_stops_turn_but_not_reading_witness :
    ((cancelledRun "gpt" "t0" "a1" (streamingState "a1" "gpt" "t0" 7)
        [tokenChunk "a" 0] [tokenChunk "c" 1] Ending.closed).1.messages.map
        (fun m => (m.content, m.status))) =
      [(tokensText [tokenChunk "a" 0] ++ tokensText [tokenChunk "c" 1],
        statusAfter [tokenChunk "c" 1] MessageStatus.stopped)] :=
  (cancellation_stops_turn_but_not_reading "gpt" "t0" "a1" 7
    [tokenChunk "a" 0] [tokenChunk "c" 1] (by decide)).2.2.2

theorem map_id_of_mem {α : Type _} (l : List α) (f : α → α)
    (h : ∀ x ∈ l, f x = x) : l.map f = l := by
  induction l with
  | nil => rfl
  | cons a l ih =>
      rw [List.map_cons, h a (List.mem_cons_self a l),
        ih (fun x hx => h x (List.mem_cons_of_mem a hx))]

/-! ### Claim C6 -/

/-- C6 counterexample: `regenerateResponse` on an id that is not in the log
leaves the log unchanged and starts no stream — but, contrary to the claim,
it does NOT set the error slot: the call is a complete silent no-op (the
source returns as soon as `findIndex` yields `-1`), with no effect at all
and `error` still `null`. -/
theorem regenerate_missing_id_no_error_cex :
    regenerateRun "gpt" "t0" [] "u9" "a9" 3
      { messages := [mkUserMessage "u1" "hello" "t0"], isStreaming := false,
        isLoading := false, error := none, abortController := none } "zz"
      (TransportOutcome.rejected "nope") =
    ({ messages := [mkUserMessage "u1" "hello" "t0"], isStreaming := false,
       isLoading := false, error := none, abortController := none }, []) := rfl

/-- C6 (amended): when the id is not present in the log,
`regenerateResponse` is a silent no-op: the whole state (log included) is
unchanged and no effect is produced — in particular no stream is started,
but also no error is recorded and no hook is invoked. -/
theorem regenerate_missing_id_silent (modelId now : String)
    (sources : List String) (uid aid : String) (handle : Nat) (s : ChatState)
    (messageId : String) (outcome : TransportOutcome)
    (hfind : s.messages.findIdx? (fun m => m.id = messageId) = none) :
    regenerateRun modelId now sources uid aid handle s messageId outcome =
      (s, []) := by
  unfold regenerateRun
  rw [hfind]

/-- Witness for C6 at a concrete log and missing id. -/
theorem regenerate_missing_id_silent_witness :
    regenerateRun "gpt" "t0" [] "u9" "a9" 3
      { messages := [], isStreaming := false, isLoading := false,
        error := none, abortController := none } "zz"
      (TransportOutcome.rejected "e") =
    ({ messages := [], isStreaming := false, isLoading := false,
       error := none, abortController := none }, []) :=
  regenerate_missing_id_silent "gpt" "t0" [] "u9" "a9" 3
    { messages := [], isStreaming := false, isLoading := false,
      error := none, abortController := none } "zz"
    (TransportOutcome.rejected "e") rfl

/-! ### Claim C5 -/

/-- C5 counterexample: a regenerate validation failure (the turn exists but
the preceding turn is missing) invokes the `onError` hook yet leaves the
`error` slot untouched (`null`): the slot and the hook are NOT always set
together. -/
theorem regenerate_validation_hook_only_cex :
    (regenerateRun "gpt" "t0" [] "u9" "a9" 3
      { messages := [{ mkAssistantPlaceholder "a1" "gpt" "t0" with
          status := MessageStatus.completed }],
        isStreaming := false, isLoading := false, error := none,
        abortController := none } "a1" (TransportOutcome.rejected "x")).2 =
      [Effect.onError "Cannot regenerate: user message not found"
        "regenerateResponse"] ∧
    (regenerateRun "gpt" "t0" [] "u9" "a9" 3
      { messages := [{ mkAssistantPlaceholder "a1" "gpt" "t0" with
          status := MessageStatus.completed }],
        isStreaming := false, isLoading := false, error := none,
        abortController := none } "a1" (TransportOutcome.rejected "x")).1.error =
      none := by
  exact ⟨rfl, rfl⟩

/-- C5 (amended): transport start failures, stream read failures, and
explicit `error` chunks set the `error` slot and invoke the `onError` hook
together; a regenerate validation failure, however, invokes only the
`onError` hook and leaves the state — `error` slot included — unchanged. -/
theorem error_slot_hook_pairing (modelId now aid : String)
    (sources : List String) (uid : String) (handle h n : Nat)
    (e emsg : String) (body chunks : List StreamChunk)
    (hist : List ChatMessage) (s sr : ChatState) (content messageId : String)
    (outcome : TransportOutcome) (i : Nat)
    (hfind : sr.messages.findIdx? (fun m => m.id = messageId) = some i)
    (hcase : i = 0 ∨ (i ≠ 0 ∧ ∃ u, sr.messages.get? (i - 1) = some u ∧
      u.role ≠ MessageRole.user)) :
    ((processStream modelId now aid (streamingState aid modelId now h)
        (body ++ [errorChunk e n]) Ending.closed).1.error = some e ∧
      Effect.onError e "stream" ∈
        (processStream modelId now aid (streamingState aid modelId now h)
          (body ++ [errorChunk e n]) Ending.closed).2) ∧
    ((processStream modelId now aid s chunks (Ending.threw emsg)).1.error =
        some emsg ∧
      Effect.onError emsg "stream" ∈
        (processStream modelId now aid s chunks (Ending.threw emsg)).2) ∧
    ((sendMessageRun modelId now sources uid aid handle hist s content
        (TransportOutcome.rejected e)).1.error = some e ∧
      Effect.onError e "sendMessage" ∈
        (sendMessageRun modelId now sources uid aid handle hist s content
          (TransportOutcome.rejected e)).2) ∧
    (regenerateRun modelId now sources uid aid handle sr messageId outcome =
      (sr, [Effect.onError "Cannot regenerate: user message not found"
        "regenerateResponse"])) := by
  refine ⟨⟨?_, ?_⟩, ⟨?_, ?_⟩, ⟨?_, ?_⟩, ?_⟩
  · show (processStreamBody modelId now aid (streamingState aid modelId now h)
      (body ++ [errorChunk e n]) Ending.closed).1.error = some e
    rw [processStreamBody_error]
    show errorAfter (body ++ [errorChunk e n]) none = some e
    rw [errorAfter_append]
    rfl
  · show Effect.onError e "stream" ∈ Effect.readerAcquired ::
      (processStreamBody modelId now aid (streamingState aid modelId now h)
        (body ++ [errorChunk e n]) Ending.closed).2
    rw [processStreamBody_snd, chunkEffects_append]
    simp [chunkEffects, errorChunk]
  · show (processStreamBody modelId now aid s chunks
      (Ending.threw emsg)).1.error = some emsg
    rw [processStreamBody_error]
  · show Effect.onError emsg "stream" ∈ Effect.readerAcquired ::
      (processStreamBody modelId now aid s chunks (Ending.threw emsg)).2
    rw [processStreamBody_snd]
    simp
  · rfl
  · show Effect.onError e "sendMessage" ∈
      [Effect.transportSend
        { message := content, dataSources := sources, model := modelId,
          conversationHistory := hist, conversationId := none },
        Effect.onError e "sendMessage"]
    simp
  · unfold regenerateRun
    rw [hfind]
    rcases hcase with h0 | ⟨hne, u, hget, hrole⟩
    · subst h0
      rfl
    · simp only [hne, if_neg, hget, if_false]
      rw [if_neg hrole]

/-- Witness for C5: the error-chunk clause and the validation-failure
clause at concrete inputs. -/
theorem error_slot_hook_pairing_witness :
    ((processStream "gpt" "t0" "a1" (streamingState "a1" "gpt" "t0" 7)
        ([] ++ [errorChunk "rate limited" 0]) Ending.closed).1.error =
      some "rate limited") ∧
    (regenerateRun "gpt" "t0" [] "u9" "a9" 3
      { messages := [{ mkAssistantPlaceholder "b1" "gpt" "t0" with
          status := MessageStatus.completed }],
        isStreaming := false, isLoading := false, error := none,
        abortController := none } "b1" (TransportOutcome.rejected "x")) =
      ({ messages := [{ mkAssistantPlaceholder "b1" "gpt" "t0" with
          status := MessageStatus.completed }],
         isStreaming := false, isLoading := false, error := none,
         abortController := none },
       [Effect.onError "Cannot regenerate: user message not found"
         "regenerateResponse"]) :=
  ⟨(error_slot_hook_pairing "gpt" "t0" "a1" [] "u9" 3 7 0 "rate limited" "em"
      [] []
      []
      { messages := [], isStreaming := false, isLoading := false,
        error := none, abortController := none }
      { messages := [{ mkAssistantPlaceholder "b1" "gpt" "t0" with
          status := MessageStatus.completed }],
        isStreaming := false, isLoading := false, error := none,
        abortController := none }
      "c" "b1" (TransportOutcome.rejected "x") 0 (by decide)
      (Or.inl rfl)).1.1,
   (error_slot_hook_pairing "gpt" "t0" "a1" [] "u9" 3 7 0 "rate limited" "em"
      [] []
      []
      { messages := [], isStreaming := false, isLoading := false,
        error := none, abortController := none }
      { messages := [{ mkAssistantPlaceholder "b1" "gpt" "t0" with
          status := MessageStatus.completed }],
        isStreaming := false, isLoading := false, error := none,
        abortController := none }
      "c" "b1" (TransportOutcome.rejected "x") 0 (by decide)
      (Or.inl rfl)).2.2.2⟩

theorem sendMessageRun_streamed_messages (modelId now : String)
    (sources : List String) (uid aid : String) (handle : Nat)
    (hist : List ChatMessage) (s : ChatState) (content : String)
    (chunks : List StreamChunk) (ending : Ending) :
    (sendMessageRun modelId now sources uid aid handle hist s content
        (TransportOutcome.streamed chunks ending)).1.messages =
      ((s.messages ++ [mkUserMessage uid content now,
        mkAssistantPlaceholder aid modelId now]).map
        (streamMsgUpd modelId now aid chunks ending)) := by
  show (processStreamBody modelId now aid _ chunks ending).1.messages = _
  rw [processStreamBody_messages]

/-! ### Claim C7 -/

/-- C7: when the target id is present and the immediately preceding turn is
a `user` turn, `regenerateResponse` truncates the log to the turns strictly
before the target and the triggered resend appends exactly 2 new turns: a
re-sent user turn carrying the preceding user turn's content, followed by a
new assistant turn (the placeholder, as the stream leaves it), so the log
has length `i + 2`.  `haid`/`huid` state that the two fresh UUIDs do not
collide with existing ids. -/
theorem regenerate_truncate_append_two (modelId now : String)
    (sources : List String) (uid aid : String) (handle : Nat) (s : ChatState)
    (messageId : String) (chunks : List StreamChunk) (ending : Ending)
    (i : Nat) (u : ChatMessage)
    (hfind : s.messages.findIdx? (fun m => m.id = messageId) = some i)
    (hi : i ≠ 0) (hu : s.messages.get? (i - 1) = some u)
    (hrole : u.role = MessageRole.user)
    (haid : ∀ m ∈ s.messages, m.id ≠ aid) (huid : uid ≠ aid) :
    ∃ a : ChatMessage,
      (regenerateRun modelId now sources uid aid handle s messageId
          (TransportOutcome.streamed chunks ending)).1.messages =
        s.messages.take i ++ [mkUserMessage uid u.content now, a] ∧
      a.id = aid ∧ a.role = MessageRole.assistant ∧
      (regenerateRun modelId now sources uid aid handle s messageId
          (TransportOutcome.streamed chunks ending)).1.messages.length =
        i + 2 := by
  have hredex : regenerateRun modelId now sources uid aid handle s messageId
      (TransportOutcome.streamed chunks ending) =
      sendMessageRun modelId now sources uid aid handle s.messages
        { s with messages := s.messages.take i } u.content
        (TransportOutcome.streamed chunks ending) := by
    unfold regenerateRun
    rw [hfind]
    simp only [hi, if_neg, hu, if_false]
    rw [if_pos hrole]
  have hmsgs : (regenerateRun modelId now sources uid aid handle s messageId
      (TransportOutcome.streamed chunks ending)).1.messages =
      s.messages.take i ++ [mkUserMessage uid u.content now,
        streamMsgUpd modelId now aid chunks ending
          (mkAssistantPlaceholder aid modelId now)] := by
    rw [hredex, sendMessageRun_streamed_messages]
    show ((s.messages.take i ++ [mkUserMessage uid u.content now,
      mkAssistantPlaceholder aid modelId now]).map
      (streamMsgUpd modelId now aid chunks ending)) = _
    rw [List.map_append, List.map_cons, List.map_cons, List.map_nil,
      map_id_of_mem _ _ (fun m hm => streamMsgUpd_other modelId now aid
        chunks ending m (haid m (List.mem_of_mem_take hm))),
      streamMsgUpd_other modelId now aid chunks ending _ huid]
  have hlen : i ≤ s.messages.length := by
    have h1 : i - 1 < s.messages.length := (List.get?_eq_some.mp hu).choose
    omega
  refine ⟨_, hmsgs, ?_, ?_, ?_⟩
  · rw [streamMsgUpd_id]
    rfl
  · rw [streamMsgUpd_role]
    rfl
  · rw [hmsgs]
    simp [List.length_append, List.length_take, Nat.min_eq_left hlen]

/-- Witness for C7: a log `[user "hello", assistant]`, regenerating the
assistant turn with fresh ids `u2`/`a2` and a stream that just reports
`done`. -/
theorem regenerate_truncate_append_two_witness :
    ∃ a : ChatMessage,
      (regenerateRun "gpt" "t0" [] "u2" "a2" 3
          { messages := [mkUserMessage "u1" "hello" "t0",
              { mkAssistantPlaceholder "a1" "gpt" "t0" with
                status := MessageStatus.completed }],
            isStreaming := false, isLoading := false, error := none,
            abortController := none } "a1"
          (TransportOutcome.streamed [doneChunk 0] Ending.closed)).1.messages =
        ([mkUserMessage "u1" "hello" "t0",
          { mkAssistantPlaceholder "a1" "gpt" "t0" with
            status := MessageStatus.completed }].take 1 ++
          [mkUserMessage "u2" "hello" "t0", a]) ∧
      a.id = "a2" ∧ a.role = MessageRole.assistant ∧
      (regenerateRun "gpt" "t0" [] "u2" "a2" 3
          { messages := [mkUserMessage "u1" "hello" "t0",
              { mkAssistantPlaceholder "a1" "gpt" "t0" with
                status := MessageStatus.completed }],
            isStreaming := false, isLoading := false, error := none,
            abortController := none } "a1"
          (TransportOutcome.streamed [doneChunk 0] Ending.closed)).1.messages.length =
        1 + 2 :=
  regenerate_truncate_append_two "gpt" "t0" [] "u2" "a2" 3
    { messages := [mkUserMessage "u1" "hello" "t0",
        { mkAssistantPlaceholder "a1" "gpt" "t0" with
          status := MessageStatus.completed }],
      isStreaming := false, isLoading := false, error := none,
      abortController := none } "a1" [doneChunk 0] Ending.closed 1
    (mkUserMessage "u1" "hello" "t0") (by decide) (by decide) (by decide)
    rfl (by decide) (by decide)

/-! ### Claim C8 -/

/-- C8: when the transport's send capability rejects before any stream is
obtained, the error is recorded in the error slot, the `onError` hook is
invoked with context `"sendMessage"`, the cancellation handle is released,
streaming is off, and the freshly appended assistant placeholder (the last
turn of the log) has status `error`. -/
theorem send_reject_error_path (modelId now : String) (sources : List String)
    (uid aid : String) (handle : Nat) (hist : List ChatMessage)
    (s : ChatState) (content e : String) :
    (sendMessageRun modelId now sources uid aid handle hist s content
        (TransportOutcome.rejected e)).1.error = some e ∧
    (sendMessageRun modelId now sources uid aid handle hist s content
        (TransportOutcome.rejected e)).1.abortController = none ∧
    (sendMessageRun modelId now sources uid aid handle hist s content
        (TransportOutcome.rejected e)).1.isStreaming = false ∧
    (sendMessageRun modelId now sources uid aid handle hist s content
        (TransportOutcome.rejected e)).2 =
      [Effect.transportSend
        { message := content, dataSources := sources, model := modelId,
          conversationHistory := hist, conversationId := none },
        Effect.onError e "sendMessage"] ∧
    ∃ pre, (sendMessageRun modelId now sources uid aid handle hist s content
        (TransportOutcome.rejected e)).1.messages =
      pre ++ [{ mkAssistantPlaceholder aid modelId now with
        status := MessageStatus.error }] := by
  refine ⟨rfl, rfl, rfl, rfl, ?_⟩
  refine ⟨s.messages.map (fun m =>
      if m.id = aid then { m with status := MessageStatus.error } else m) ++
    [if (mkUserMessage uid content now).id = aid
     then { mkUserMessage uid content now with status := MessageStatus.error }
     else mkUserMessage uid content now], ?_⟩
  show ((s.messages ++ [mkUserMessage uid content now,
      mkAssistantPlaceholder aid modelId now]).map (fun m =>
      if m.id = aid then { m with status := MessageStatus.error } else m)) = _
  rw [List.map_append, List.map_cons, List.map_cons, List.map_nil]
  simp [mkAssistantPlaceholder, mkUserMessage]

/-! ### Claim C10 -/

/-- C10: with an active cancellation handle, `stopStreaming` invokes the
transport's stop capability exactly once with that handle, releases the
handle, clears `isStreaming`, leaves the error slot and loading flag
untouched, and — selecting turns by STATUS, not by the streaming turn's
id — maps every turn whose status is `streaming` to the same turn with
status `stopped`, leaving every other turn and every other field unchanged;
with no active handle it changes nothing and invokes nothing. -/
theorem stopStreaming_frame_effects (s : ChatState) :
    (∀ h, s.abortController = some h →
      ((stopStreamingRun s).2 = [Effect.transportStop h] ∧
       (stopStreamingRun s).1.error = s.error ∧
       (stopStreamingRun s).1.isLoading = s.isLoading ∧
       (stopStreamingRun s).1.isStreaming = false ∧
       (stopStreamingRun s).1.abortController = none ∧
       ∀ i : Nat, (stopStreamingRun s).1.messages[i]? =
         (s.messages[i]?).map (fun m =>
           if m.status = MessageStatus.streaming
           then { m with status := MessageStatus.stopped } else m))) ∧
    (s.abortController = none → stopStreamingRun s = (s, [])) := by
  constructor
  · intro h hsome
    refine ⟨?_, ?_, ?_, ?_, ?_, ?_⟩
    · simp [stopStreamingRun, hsome]
    · simp [stopStreamingRun, hsome]
    · simp [stopStreamingRun, hsome]
    · simp [stopStreamingRun, hsome]
    · simp [stopStreamingRun, hsome]
    · intro i
      simp [stopStreamingRun, hsome, List.getElem?_map]
  · intro hnone
    simp [stopStreamingRun, hnone]

/-- Witness for C10: both branches at concrete states — an active handle
over a streaming turn, and the idle no-op case. -/
theorem stopStreaming_frame_effects_witness :
    (stopStreamingRun
      { messages := [mkAssistantPlaceholder "a1" "gpt" "t0"],
        isStreaming := true, isLoading := false, error := none,
        abortController := some 5 }).2 = [Effect.transportStop 5] ∧
    stopStreamingRun
      { messages := [], isStreaming := false,
        isLoading := false, error := none, abortController := none } =
      ({ messages := [], isStreaming := false, isLoading := false,
         error := none, abortController := none }, []) :=
  ⟨((stopStreaming_frame_effects
      { messages := [mkAssistantPlaceholder "a1" "gpt" "t0"],
        isStreaming := true, isLoading := false, error := none,
        abortController := some 5 }).1 5 rfl).1,
   (stopStreaming_frame_effects
      { messages := [], isStreaming := false, isLoading := false,
        error := none, abortController := none }).2 rfl⟩

end SecureRag
